import Mathlib

/-
  Shallow embedding of the taskbadger Python SDK's celery integration
  (taskbadger/celery.py), its safe facade (taskbadger/safe_sdk.py) and the
  relevant parts of taskbadger/sdk.py.

  Modelling conventions:
  * Python dicts (and collections.OrderedDict) are association lists with
    Python's semantics: assignment to an existing key replaces the value in
    place (keeping insertion position), assignment to a fresh key appends.
  * A falsy header mapping (None or empty) is modelled as `none`.
  * The remote HTTP layer (create_task / update_task / get_task bodies in
    sdk.py, which are plumbing over the wire contract) is an environment of
    functions returning `Except String RemoteTask`: `Except.error` models a
    raised exception, `Except.ok` a successful call.
  * Side effects are made explicit: handlers take and return state
    (cache, session flag, sender request context, registry entry), and emit a
    trace of calls (`RemoteCall`).  `createSafe`/`updateSafe` entries mark an
    invocation of the safe facade, `createApi`/`updateApi` an invocation of
    the underlying API function, `getApi` an invocation of the underlying
    `get_task` fetch inside `safe_get_task`.
-/

/-- Python dict lookup: `d.get(key)`. -/
def dlookup {α : Type} : List (String × α) → String → Option α
  | [], _ => none
  | (k, v) :: rest, key => if k = key then some v else dlookup rest key

/-- Python dict assignment `d[key] = v`: replace in place if the key is
present (keeping its position), otherwise append. -/
def dinsert {α : Type} : List (String × α) → String → α → List (String × α)
  | [], key, v => [(key, v)]
  | (k, w) :: rest, key, v =>
      if k = key then (key, v) :: rest else (k, w) :: dinsert rest key v

/-- Python dict `d.pop(key, None)` (the removal part): drop the binding. -/
def dremove {α : Type} : List (String × α) → String → List (String × α)
  | [], _ => []
  | (k, w) :: rest, key =>
      if k = key then rest else (k, w) :: dremove rest key

/-- Python `d.update(other)`: fold assignments of `other` into `d`. -/
def dupdate {α : Type} (d : List (String × α)) (other : List (String × α)) :
    List (String × α) :=
  other.foldl (fun acc kv => dinsert acc kv.1 kv.2) d

/-- taskbadger.internal StatusEnum. -/
inductive StatusEnum where
  | pending
  | pre_processing
  | processing
  | post_processing
  | success
  | error
  | cancelled
  | stale
  deriving DecidableEq

/-- celery.py: TERMINAL_STATES = {SUCCESS, ERROR, CANCELLED, STALE}. -/
def terminalStates : List StatusEnum :=
  [StatusEnum.success, StatusEnum.error, StatusEnum.cancelled, StatusEnum.stale]

/-- Free-form task `data` mapping; the claims never inspect nesting, so leaf
values are strings. -/
abbrev TaskData := List (String × String)

/-- internal model field of type Union[Unset, None, A]. -/
inductive UOpt (α : Type) where
  | unset
  | null
  | val (a : α)
  deriving DecidableEq

/-- The remote task as held by the SDK (`sdk.Task` wrapping the internal
model): the fields the core reads. -/
structure RemoteTask where
  id : String
  status : StatusEnum
  value : UOpt Int
  data : Option TaskData
  deriving DecidableEq

/-- Values stored in tracking-option mappings (kwargs). -/
inductive Val where
  | vint (n : Int)
  | vstr (s : String)
  | vbool (b : Bool)
  | vstatus (s : StatusEnum)
  deriving DecidableEq

/-- celery.py KWARG_PREFIX. -/
def kwargPref : String := "taskbadger_"

/-- celery.py IGNORE_ARGS. -/
def ignoreArgs : List String :=
  ["taskbadger_kwargs", "taskbadger_task", "taskbadger_task_id"]

/-- Python `str.startswith`, computed on the character lists so that it
reduces inside the kernel. -/
def strStarts (s p : String) : Bool :=
  p.data.isPrefixOf s.data

/-- Drop the first n characters, computed on the character list. -/
def strDrop (s : String) (n : Nat) : String :=
  String.mk (s.data.drop n)

/-- Python `name.removeprefix(KWARG_PREFIX)`. -/
def dropPref (s : String) : String :=
  if strStarts s kwargPref then strDrop s kwargPref.length else s

/-- The execution's header bag (celery message headers), with the keys the
core reads.  A missing or empty (falsy) bag is `Option.none` at use sites. -/
structure HeaderBag where
  task : String
  celery_id : String
  taskbadger_track : Bool
  tb_kwargs : List (String × Val)
  taskbadger_task_id : Option String
  deriving DecidableEq

/-- A registered celery task definition, as the publish handler sees it:
`tb_kwargs` is the `taskbadger_kwargs` attribute when present (`some` means
the attribute exists and is aliased by `getattr(ctask, TB_KWARGS_ARG, {})`),
`attrs` are the `taskbadger_`-prefixed attributes found by `dir(ctask)`
(full attribute names, the handler strips the prefix itself). -/
structure CTask where
  tb_kwargs : Option (List (String × Val))
  attrs : List (String × Val)
  deriving DecidableEq

/-- Trace of calls emitted by the handlers. -/
inductive RemoteCall where
  | createSafe (name : Val) (kwargs : List (String × Val))
  | createApi (name : Val) (kwargs : List (String × Val))
  | updateSafe (id : String) (status : StatusEnum) (data : Option TaskData)
  | updateApi (id : String) (status : StatusEnum) (data : Option TaskData)
  | getApi (id : String)
  | updState (celeryId : String) (tbId : String)
  deriving DecidableEq

/-- The status carried by an update call, if the call is one. -/
def updStatus : RemoteCall → Option StatusEnum
  | RemoteCall.updateSafe _ s _ => some s
  | RemoteCall.updateApi _ s _ => some s
  | _ => none

/-- The ambient environment: configuration (Badger.is_configured and the
celery system settings, whose accessor lives outside src), the celery task
registry, the underlying Remote Task API and the data-merge strategy.
`mergeData` stands for `DefaultMergeStrategy().merge` (imported by celery.py
from sdk.py; its class body is not part of the embedded core, and no claim
depends on its output). -/
structure Env where
  configured : Bool
  autoTrackCelery : Option Bool
  tasks : String → Option CTask
  create_task : Val → List (String × Val) → Except String RemoteTask
  update_task : String → StatusEnum → Option TaskData → Except String RemoteTask
  get_task : String → Except String RemoteTask
  mergeData : Option TaskData → TaskData → TaskData

/-- celery.py Cache (an OrderedDict plus a maximum size). -/
structure Cache (α : Type) where
  cache : List (String × α)
  maxsize : Nat
  deriving DecidableEq

/-- Cache.set: plain dict assignment, no eviction. -/
def Cache.set {α : Type} (c : Cache α) (key : String) (v : α) : Cache α :=
  { c with cache := dinsert c.cache key v }

/-- Cache.unset: `self.cache.pop(key, None)`. -/
def Cache.unset {α : Type} (c : Cache α) (key : String) : Cache α :=
  { c with cache := dremove c.cache key }

/-- Cache.get: `self.cache.get(key)` (the returned value). -/
def Cache.get {α : Type} (c : Cache α) (key : String) : Option α :=
  dlookup c.cache key

/-- Cache.get as a method on the mutable object: result plus the (unchanged)
state, making explicit that lookups never promote an entry. -/
def Cache.getS {α : Type} (c : Cache α) (key : String) : Option α × Cache α :=
  (dlookup c.cache key, c)

/-- Cache.prune: drop the oldest-inserted entry (popitem(last=False)) once
the size exceeds maxsize. -/
def Cache.prune {α : Type} (c : Cache α) : Cache α :=
  if c.cache.length > c.maxsize then { c with cache := c.cache.tail } else c

/-- safe_sdk.create_task_safe: check configuration, call through, convert any
exception to an absent result.  The Option return type (rather than Except)
is the fact that no exception escapes the facade. -/
def create_task_safe (env : Env) (name : Val) (kwargs : List (String × Val)) :
    Option RemoteTask × List RemoteCall :=
  if env.configured then
    match env.create_task name kwargs with
    | Except.ok t =>
        (some t, [RemoteCall.createSafe name kwargs, RemoteCall.createApi name kwargs])
    | Except.error _ =>
        (none, [RemoteCall.createSafe name kwargs, RemoteCall.createApi name kwargs])
  else (none, [RemoteCall.createSafe name kwargs])

/-- safe_sdk.update_task_safe, with the keyword shape used by the core
(status and data). -/
def update_task_safe (env : Env) (tid : String) (status : StatusEnum)
    (data : Option TaskData) : Option RemoteTask × List RemoteCall :=
  if env.configured then
    match env.update_task tid status data with
    | Except.ok t =>
        (some t, [RemoteCall.updateSafe tid status data, RemoteCall.updateApi tid status data])
    | Except.error _ =>
        (none, [RemoteCall.updateSafe tid status data, RemoteCall.updateApi tid status data])
  else (none, [RemoteCall.updateSafe tid status data])

/-- celery.safe_get_task with its `cached(cache_none=False)` wrapper inlined:
on a hit return the cached value; on a miss run the try/except body (an
exception yields `none`) and cache only a non-absent result.  The key tuple
`(task_id,)` is represented by the task id itself. -/
def safe_get_task (env : Env) (c : Cache RemoteTask) (tid : String) :
    Option RemoteTask × Cache RemoteTask × List RemoteCall :=
  match dlookup c.cache tid with
  | some t => (some t, c, [])
  | none =>
      match env.get_task tid with
      | Except.ok t => (some t, Cache.set c tid t, [RemoteCall.getApi tid])
      | Except.error _ => (none, c, [RemoteCall.getApi tid])

/-- Mutable state shared across handlers within a worker process: the
`safe_get_task` cache and whether the Badger session's client is open.
The session object itself lives in taskbadger/mug.py; only the open/closed
flag is relevant to the embedded core. -/
structure TBState where
  cache : Cache RemoteTask
  sessionOpen : Bool
  deriving DecidableEq

/-- The signal sender (the executing celery task instance) as the lifecycle
handlers read it: its request headers, the memoized `taskbadger_task` request
entry, and whether the instance has the `taskbadger_task` property (it is a
taskbadger.celery.Task). -/
structure Sender where
  headers : Option HeaderBag
  memo : Option RemoteTask
  isTbTask : Bool
  deriving DecidableEq

/-- Task.taskbadger_task_id property: `self.request and self.request.headers
and self.request.headers.get("taskbadger_task_id")`. -/
def sender_task_id (s : Sender) : Option String :=
  s.headers.bind (fun h => h.taskbadger_task_id)

/-- Task.taskbadger_task property: absent without a task id; otherwise the
memoized request entry, else a `safe_get_task` lookup whose non-absent result
is memoized back into the request. -/
def taskbadger_task (env : Env) (st : TBState) (s : Sender) :
    Option RemoteTask × TBState × Sender × List RemoteCall :=
  match sender_task_id s with
  | none => (none, st, s, [])
  | some tid =>
      match s.memo with
      | some t => (some t, st, s, [])
      | none =>
          let g := safe_get_task env st.cache tid
          let s1 := match g.1 with
            | some t => { s with memo := some t }
            | none => s
          (g.1, { st with cache := g.2.1 }, s1, g.2.2)

/-- Lines 203-206 of celery.py: resolve the current remote task, preferring
the sender's `taskbadger_task` property when it exists, else `safe_get_task`
on the header task id. -/
def resolve_task (env : Env) (st : TBState) (s : Sender) (tid : String) :
    Option RemoteTask × TBState × Sender × List RemoteCall :=
  if s.isTbTask then taskbadger_task env st s
  else
    let g := safe_get_task env st.cache tid
    (g.1, { st with cache := g.2.1 }, s, g.2.2)

/-- celery.enter_session: if configured and the session client is not yet
open, open it (idempotent). -/
def enter_session (env : Env) (st : TBState) : TBState :=
  if env.configured then
    if st.sessionOpen then st else { st with sessionOpen := true }
  else st

/-- celery.exit_session: guarded by the header bag, the task id and the
configuration flag; evicts the cache entry, prunes, and closes the session if
its client is open. -/
def exit_session (env : Env) (st : TBState) (s : Sender) : TBState :=
  match s.headers with
  | none => st
  | some h =>
      match h.taskbadger_task_id with
      | none => st
      | some tid =>
          if env.configured then
            let st1 := { st with cache := Cache.prune (Cache.unset st.cache tid) }
            if st1.sessionOpen then { st1 with sessionOpen := false } else st1
          else st

/-- celery._update_task: the shared update routine.  Returns the new state,
the (possibly memo-updated) sender and the trace of calls. -/
def _update_task (env : Env) (st : TBState) (s : Sender) (status : StatusEnum)
    (einfo : Option String) : TBState × Sender × List RemoteCall :=
  match s.headers with
  | none => (st, s, [])
  | some h =>
      match h.taskbadger_task_id with
      | none => (st, s, [])
      | some tid =>
          let r := resolve_task env st s tid
          match r.1 with
          | none => (r.2.1, r.2.2.1, r.2.2.2)
          | some t =>
              if t.status ∈ terminalStates then (r.2.1, r.2.2.1, r.2.2.2)
              else
                let st2 := enter_session env r.2.1
                let data := einfo.map (fun e => env.mergeData t.data [("exception", e)])
                let u := update_task_safe env t.id status data
                let st3 := match u.1 with
                  | some t2 => { st2 with cache := Cache.set st2.cache tid t2 }
                  | none => st2
                (st3, r.2.2.1, r.2.2.2 ++ u.2)

/-- celery.task_prerun_handler. -/
def task_prerun_handler (env : Env) (st : TBState) (s : Sender) :
    TBState × Sender × List RemoteCall :=
  _update_task env st s StatusEnum.processing none

/-- celery.task_success_handler. -/
def task_success_handler (env : Env) (st : TBState) (s : Sender) :
    TBState × Sender × List RemoteCall :=
  let r := _update_task env st s StatusEnum.success none
  (exit_session env r.1 r.2.1, r.2.1, r.2.2)

/-- celery.task_failure_handler. -/
def task_failure_handler (env : Env) (st : TBState) (s : Sender)
    (einfo : Option String) : TBState × Sender × List RemoteCall :=
  let r := _update_task env st s StatusEnum.error einfo
  (exit_session env r.1 r.2.1, r.2.1, r.2.2)

/-- celery.task_retry_handler. -/
def task_retry_handler (env : Env) (st : TBState) (s : Sender)
    (einfo : Option String) : TBState × Sender × List RemoteCall :=
  let r := _update_task env st s StatusEnum.error einfo
  (exit_session env r.1 r.2.1, r.2.1, r.2.2)

/-- Lines 153-159 of celery.py: the decorator-level options (the aliased
`taskbadger_kwargs` attribute dict, then the prefixed attributes with the
reserved names excluded and the prefix stripped), overwritten by the
schedule-time options from the header bag.  This is the effective mapping
before the status injection and name pop. -/
def merged_options (ctask : Option CTask) (h : HeaderBag) : List (String × Val) :=
  let base := match ctask with
    | none => []
    | some c => c.tb_kwargs.getD []
  let attrsList : List (String × Val) := match ctask with
    | none => []
    | some c => c.attrs
  let withAttrs := attrsList.foldl
      (fun d (kv : String × Val) =>
        if strStarts kv.1 kwargPref && !(ignoreArgs.contains kv.1) then
          dinsert d (dropPref kv.1) kv.2
        else d)
      base
  dupdate withAttrs h.tb_kwargs

/-- Lines 153-161 of celery.py: the full effective-options computation.
Returns the kwargs passed to `create_task_safe`, the name, and the registry
task's `taskbadger_kwargs` attribute afterwards.  Because `getattr(ctask,
TB_KWARGS_ARG, {})` aliases the stored dict when the attribute is present,
every in-place mutation (attribute merge, header merge, status assignment,
name pop) lands in the stored dict, which therefore ends up equal to the
returned kwargs. -/
def effective_kwargs (ctask : Option CTask) (h : HeaderBag) :
    List (String × Val) × Val × Option CTask :=
  let m2 := dinsert (merged_options ctask h) "status" (Val.vstatus StatusEnum.pending)
  let nm := dlookup m2 "name"
  let rest := dremove m2 "name"
  let name := nm.getD (Val.vstr h.task)
  let ctask1 := ctask.map
    (fun c => { c with tb_kwargs := c.tb_kwargs.map (fun _ => rest) })
  (rest, name, ctask1)

/-- Result of the publish handler: the header bag, the registry entry for the
sender afterwards (the in-place mutation of its stored kwargs made explicit),
and the trace. -/
structure PubOut where
  headers : Option HeaderBag
  ctask : Option CTask
  trace : List RemoteCall
  deriving DecidableEq

/-- celery.task_publish_handler.  `updState` records the
`ctask.update_state(...)` host-framework call after a successful create. -/
def task_publish_handler (env : Env) (sender : String)
    (headers : Option HeaderBag) : PubOut :=
  match headers with
  | none => ⟨none, env.tasks sender, []⟩
  | some h =>
      if strStarts sender "celery." || !env.configured then
        ⟨some h, env.tasks sender, []⟩
      else
        let auto_track := env.autoTrackCelery.getD false
        if !h.taskbadger_track && !auto_track then ⟨some h, env.tasks sender, []⟩
        else
          let ek := effective_kwargs (env.tasks sender) h
          let cr := create_task_safe env ek.2.1 ek.1
          match cr.1 with
          | none => ⟨some h, ek.2.2, cr.2⟩
          | some t =>
              ⟨some { h with taskbadger_task_id := some t.id }, ek.2.2,
                cr.2 ++ [RemoteCall.updState h.celery_id t.id]⟩

/-- sdk.Task.increment_progress: the (task id, value) payload of the
`self.update(value=...)` call it issues.  An UNSET or None current value is
normalised to 0 before adding the amount. -/
def increment_progress (t : RemoteTask) (amount : Int) : String × Int :=
  let value := t.value
  let value_norm : Int := match value with
    | UOpt.val v => v
    | _ => 0
  (t.id, value_norm + amount)

/-- A remote task already in a terminal state (SUCCESS). -/
def tTerm : RemoteTask :=
  { id := "t1", status := StatusEnum.success, value := UOpt.unset, data := none }

/-- A remote task in a non-terminal state (PROCESSING). -/
def tLive : RemoteTask :=
  { id := "t1", status := StatusEnum.processing, value := UOpt.val 3,
    data := some [("x", "1")] }

/-- The remote task returned by a successful update call. -/
def tNew : RemoteTask :=
  { id := "t1", status := StatusEnum.error, value := UOpt.val 3,
    data := some [("x", "1"), ("exception", "boom")] }

/-- A concrete merge function standing in for DefaultMergeStrategy().merge. -/
def mergeEx (d : Option TaskData) (new : TaskData) : TaskData :=
  (d.getD []) ++ new

/-- Configured environment whose fetch returns the terminal task `tTerm`. -/
def envTerm : Env :=
  { configured := true
    autoTrackCelery := none
    tasks := fun _ => none
    create_task := fun _ _ => Except.error "network down"
    update_task := fun _ _ _ => Except.error "network down"
    get_task := fun tid => if tid = "t1" then Except.ok tTerm else Except.error "404"
    mergeData := mergeEx }

/-- Configured environment whose fetch returns the live task `tLive` and
whose update succeeds with `tNew`. -/
def envLive : Env :=
  { configured := true
    autoTrackCelery := none
    tasks := fun _ => none
    create_task := fun _ _ => Except.error "network down"
    update_task := fun _ _ _ => Except.ok tNew
    get_task := fun tid => if tid = "t1" then Except.ok tLive else Except.error "404"
    mergeData := mergeEx }

/-- Unconfigured environment. -/
def envOff : Env :=
  { configured := false
    autoTrackCelery := some true
    tasks := fun _ => none
    create_task := fun _ _ => Except.ok tLive
    update_task := fun _ _ _ => Except.ok tLive
    get_task := fun _ => Except.ok tLive
    mergeData := mergeEx }

/-- Configured environment whose underlying create/update/get all raise. -/
def envErr : Env :=
  { configured := true
    autoTrackCelery := some false
    tasks := fun _ => none
    create_task := fun _ _ => Except.error "boom"
    update_task := fun _ _ _ => Except.error "boom"
    get_task := fun _ => Except.error "boom"
    mergeData := mergeEx }

/-- A header bag carrying the tracked task id "t1". -/
def hdr1 : HeaderBag :=
  { task := "jobs.send_email", celery_id := "cel-1", taskbadger_track := true,
    tb_kwargs := [], taskbadger_task_id := some "t1" }

/-- A header bag with no task id and no opt-in flag. -/
def hdr0 : HeaderBag :=
  { task := "jobs.send_email", celery_id := "cel-0", taskbadger_track := false,
    tb_kwargs := [], taskbadger_task_id := none }

/-- A sender (plain celery task instance, no taskbadger_task property) whose
request carries `hdr1`. -/
def sender1 : Sender :=
  { headers := some hdr1, memo := none, isTbTask := false }

/-- Initial worker state: empty cache of capacity 128, session closed. -/
def stInit : TBState :=
  { cache := { cache := [], maxsize := 128 }, sessionOpen := false }

/-- Decorator-level options {a:1, b:2} given as taskbadger_-prefixed
attributes on the task definition. -/
def ctaskEx : CTask :=
  { tb_kwargs := none
    attrs := [("taskbadger_a", Val.vint 1), ("taskbadger_b", Val.vint 2)] }

/-- Schedule-time options {b:3, c:4} in the header bag. -/
def hdrEx : HeaderBag :=
  { task := "jobs.crunch", celery_id := "cel-4", taskbadger_track := true,
    tb_kwargs := [("b", Val.vint 3), ("c", Val.vint 4)], taskbadger_task_id := none }

/-- A task definition whose stored taskbadger_kwargs attribute dict holds a
custom name (the aliased-mutation failing input). -/
def ctaskAlias : CTask :=
  { tb_kwargs := some [("name", Val.vstr "custom")], attrs := [] }

/-- A header bag for publishing `ctaskAlias` with no schedule-time options. -/
def hdrAlias : HeaderBag :=
  { task := "jobs.aliased", celery_id := "cel-8", taskbadger_track := true,
    tb_kwargs := [], taskbadger_task_id := none }

/-- An operation against the cache object: an insertion or a lookup. -/
inductive CacheOp (α : Type) where
  | ins (k : String) (v : α)
  | find (k : String)

/-- Whether a cache operation is an insertion. -/
def CacheOp.isIns {α : Type} : CacheOp α → Bool
  | CacheOp.ins _ _ => true
  | CacheOp.find _ => false

/-- Run a sequence of cache operations against the mutable cache object. -/
def runOps {α : Type} (c : Cache α) : List (CacheOp α) → Cache α
  | [] => c
  | CacheOp.ins k v :: rest => runOps (Cache.set c k v) rest
  | CacheOp.find k :: rest => runOps (Cache.getS c k).2 rest

theorem dlookup_dinsert_self {α : Type} (d : List (String × α)) (k : String) (v : α) :
    dlookup (dinsert d k v) k = some v := by
  induction d with
  | nil => simp [dinsert, dlookup]
  | cons hd tl ih =>
      obtain ⟨k1, w1⟩ := hd
      by_cases hk : k1 = k
      · simp [dinsert, hk, dlookup]
      · simp [dinsert, hk, dlookup, ih]

theorem dlookup_dinsert_ne {α : Type} (d : List (String × α)) (k k' : String) (v : α)
    (hne : k' ≠ k) : dlookup (dinsert d k v) k' = dlookup d k' := by
  induction d with
  | nil => simp [dinsert, dlookup, Ne.symm hne]
  | cons hd tl ih =>
      obtain ⟨k1, w1⟩ := hd
      by_cases hk : k1 = k
      · subst hk
        simp [dinsert, dlookup, Ne.symm hne]
      · simp only [dinsert, if_neg hk]
        by_cases hk' : k1 = k'
        · simp [dlookup, hk']
        · simp [dlookup, hk', ih]

theorem dlookup_dremove_ne {α : Type} (d : List (String × α)) (k k' : String)
    (hne : k' ≠ k) : dlookup (dremove d k) k' = dlookup d k' := by
  induction d with
  | nil => simp [dremove]
  | cons hd tl ih =>
      obtain ⟨k1, w1⟩ := hd
      by_cases hk : k1 = k
      · subst hk
        simp [dremove, dlookup, Ne.symm hne]
      · simp only [dremove, if_neg hk]
        by_cases hk' : k1 = k'
        · simp [dlookup, hk']
        · simp [dlookup, hk', ih]

theorem dinsert_of_lookup_none {α : Type} (d : List (String × α)) (k : String) (v : α)
    (h : dlookup d k = none) : dinsert d k v = d ++ [(k, v)] := by
  induction d with
  | nil => simp [dinsert]
  | cons hd tl ih =>
      obtain ⟨k1, w1⟩ := hd
      by_cases hk : k1 = k
      · simp [dlookup, hk] at h
      · simp only [dlookup, if_neg hk] at h
        simp [dinsert, hk, ih h]

theorem dinsert_length {α : Type} (d : List (String × α)) (k : String) (v : α) :
    (dinsert d k v).length =
      if (dlookup d k).isSome then d.length else d.length + 1 := by
  induction d with
  | nil => simp [dinsert, dlookup]
  | cons hd tl ih =>
      obtain ⟨k1, w1⟩ := hd
      by_cases hk : k1 = k
      · simp [dinsert, dlookup, hk]
      · simp only [dinsert, if_neg hk, dlookup, List.length_cons, ih]
        by_cases hs : (dlookup tl k).isSome
        · simp [hs]
        · simp [hs]

theorem dlookup_append_none {α : Type} (d1 d2 : List (String × α)) (k : String)
    (h : dlookup d1 k = none) : dlookup (d1 ++ d2) k = dlookup d2 k := by
  induction d1 with
  | nil => simp
  | cons hd tl ih =>
      obtain ⟨k1, w1⟩ := hd
      by_cases hk : k1 = k
      · simp [dlookup, hk] at h
      · simp only [dlookup, if_neg hk] at h
        simp [dlookup, hk, ih h]

theorem foldl_set_fresh {α : Type} (f : String → α) :
    ∀ (keys : List String) (c : Cache α), keys.Nodup →
      (∀ k ∈ keys, dlookup c.cache k = none) →
      (keys.foldl (fun acc k => Cache.set acc k (f k)) c).cache
        = c.cache ++ keys.map (fun k => (k, f k)) := by
  intro keys
  induction keys with
  | nil => intro c _ _; simp
  | cons k rest ih =>
      intro c hnd hfresh
      have hknone : dlookup c.cache k = none := hfresh k (by simp)
      have hset : (Cache.set c k (f k)).cache = c.cache ++ [(k, f k)] := by
        simp [Cache.set, dinsert_of_lookup_none c.cache k (f k) hknone]
      have hnd' : rest.Nodup := (List.nodup_cons.mp hnd).2
      have hkmem : k ∉ rest := (List.nodup_cons.mp hnd).1
      have hfresh' : ∀ k' ∈ rest, dlookup (Cache.set c k (f k)).cache k' = none := by
        intro k' hk'
        rw [hset]
        rw [dlookup_append_none c.cache [(k, f k)] k' (hfresh k' (by simp [hk']))]
        have hne : ¬k = k' := by
          intro he
          exact hkmem (he ▸ hk')
        simp [dlookup, hne]
      calc ((k :: rest).foldl (fun acc k => Cache.set acc k (f k)) c).cache
          = (rest.foldl (fun acc k => Cache.set acc k (f k)) (Cache.set c k (f k))).cache := by
            simp [List.foldl_cons]
        _ = (Cache.set c k (f k)).cache ++ rest.map (fun k => (k, f k)) :=
            ih (Cache.set c k (f k)) hnd' hfresh'
        _ = c.cache ++ (k :: rest).map (fun k => (k, f k)) := by
            rw [hset]; simp

theorem foldl_set_maxsize {α : Type} (f : String → α) :
    ∀ (keys : List String) (c : Cache α),
      (keys.foldl (fun acc k => Cache.set acc k (f k)) c).maxsize = c.maxsize := by
  intro keys
  induction keys with
  | nil => intro c; rfl
  | cons k rest ih =>
      intro c
      simp only [List.foldl_cons]
      rw [ih (Cache.set c k (f k))]
      rfl

theorem runOps_filter {α : Type} :
    ∀ (ops : List (CacheOp α)) (c : Cache α),
      runOps c ops = runOps c (ops.filter CacheOp.isIns) := by
  intro ops
  induction ops with
  | nil => intro c; rfl
  | cons op rest ih =>
      intro c
      cases op with
      | ins k v => simp [runOps, CacheOp.isIns, List.filter, ih]
      | find k => simp [runOps, Cache.getS, CacheOp.isIns, List.filter, ih]

theorem safe_get_trace (env : Env) (c : Cache RemoteTask) (tid : String) :
    ∀ call ∈ (safe_get_task env c tid).2.2, call = RemoteCall.getApi tid := by
  intro call hc
  unfold safe_get_task at hc
  cases hl : dlookup c.cache tid with
  | some t => rw [hl] at hc; simp at hc
  | none =>
      rw [hl] at hc
      cases hg : env.get_task tid with
      | ok t => rw [hg] at hc; simp at hc; exact hc
      | error e => rw [hg] at hc; simp at hc; exact hc

theorem tb_task_trace_upd (env : Env) (st : TBState) (s : Sender) :
    ∀ call ∈ (taskbadger_task env st s).2.2.2, updStatus call = none := by
  intro call hc
  unfold taskbadger_task at hc
  cases hid : sender_task_id s with
  | none => rw [hid] at hc; simp at hc
  | some tid =>
      rw [hid] at hc
      cases hm : s.memo with
      | some t => rw [hm] at hc; simp at hc
      | none =>
          rw [hm] at hc
          simp only [] at hc
          have := safe_get_trace env st.cache tid call hc
          rw [this]
          rfl

theorem resolve_trace_upd (env : Env) (st : TBState) (s : Sender) (tid : String) :
    ∀ call ∈ (resolve_task env st s tid).2.2.2, updStatus call = none := by
  intro call hc
  unfold resolve_task at hc
  by_cases hb : s.isTbTask
  · rw [if_pos hb] at hc
    exact tb_task_trace_upd env st s call hc
  · rw [if_neg hb] at hc
    simp only [] at hc
    have := safe_get_trace env st.cache tid call hc
    rw [this]
    rfl

theorem update_safe_trace_status (env : Env) (tid : String) (status : StatusEnum)
    (d : Option TaskData) :
    ∀ call ∈ (update_task_safe env tid status d).2, ∀ σ,
      updStatus call = some σ → σ = status := by
  intro call hc σ hσ
  unfold update_task_safe at hc
  by_cases hcfg : env.configured
  · rw [if_pos hcfg] at hc
    cases hu : env.update_task tid status d with
    | ok t =>
        rw [hu] at hc
        simp at hc
        rcases hc with h1 | h2
        · rw [h1] at hσ; simp [updStatus] at hσ; exact hσ.symm
        · rw [h2] at hσ; simp [updStatus] at hσ; exact hσ.symm
    | error e =>
        rw [hu] at hc
        simp at hc
        rcases hc with h1 | h2
        · rw [h1] at hσ; simp [updStatus] at hσ; exact hσ.symm
        · rw [h2] at hσ; simp [updStatus] at hσ; exact hσ.symm
  · rw [if_neg hcfg] at hc
    simp at hc
    rw [hc] at hσ
    simp [updStatus] at hσ
    exact hσ.symm

theorem safe_get_cache (env : Env) (c : Cache RemoteTask) (tid : String) (t : RemoteTask)
    (h : (safe_get_task env c tid).1 = some t) :
    (safe_get_task env c tid).2.1 = c ∨
    (dlookup c.cache tid = none ∧ (safe_get_task env c tid).2.1 = Cache.set c tid t) := by
  cases hl : dlookup c.cache tid with
  | some t0 =>
      left
      simp [safe_get_task, hl]
  | none =>
      cases hg : env.get_task tid with
      | ok t1 =>
          have h1 : t1 = t := by
            have h' := h
            simp [safe_get_task, hl, hg] at h'
            exact h'
          subst h1
          right
          exact ⟨rfl, by simp [safe_get_task, hl, hg]⟩
      | error e =>
          exfalso
          simp [safe_get_task, hl, hg] at h

theorem resolve_cache_of_some (env : Env) (st : TBState) (s : Sender) (tid : String)
    (t : RemoteTask) (hsid : sender_task_id s = some tid)
    (hres : (resolve_task env st s tid).1 = some t) :
    Cache.get (resolve_task env st s tid).2.1.cache tid = Cache.get st.cache tid ∨
    (Cache.get st.cache tid = none ∧
     Cache.get (resolve_task env st s tid).2.1.cache tid = some t) := by
  by_cases hb : s.isTbTask
  · cases hm : s.memo with
    | some m =>
        left
        simp [resolve_task, hb, taskbadger_task, hsid, hm]
    | none =>
        have hres' : (safe_get_task env st.cache tid).1 = some t := by
          have h' := hres
          simp [resolve_task, hb, taskbadger_task, hsid, hm] at h'
          exact h'
        rcases safe_get_cache env st.cache tid t hres' with hsame | ⟨hnone, hset⟩
        · left
          simp only [resolve_task, hb, if_true, taskbadger_task, hsid, hm]
          rw [hsame]
        · right
          refine ⟨hnone, ?_⟩
          simp only [resolve_task, hb, if_true, taskbadger_task, hsid, hm]
          rw [hset]
          unfold Cache.get Cache.set
          exact dlookup_dinsert_self st.cache.cache tid t
  · have hb' : s.isTbTask = false := by
      cases hbv : s.isTbTask
      · rfl
      · exact absurd hbv hb
    have hres' : (safe_get_task env st.cache tid).1 = some t := by
      have h' := hres
      simp [resolve_task, hb'] at h'
      exact h'
    rcases safe_get_cache env st.cache tid t hres' with hsame | ⟨hnone, hset⟩
    · left
      simp only [resolve_task, hb', Bool.false_eq_true, if_false]
      rw [hsame]
    · right
      refine ⟨hnone, ?_⟩
      simp only [resolve_task, hb', Bool.false_eq_true, if_false]
      rw [hset]
      unfold Cache.get Cache.set
      exact dlookup_dinsert_self st.cache.cache tid t

theorem update_task_trace_status (env : Env) (st : TBState) (s : Sender)
    (status : StatusEnum) (einfo : Option String) :
    ∀ call ∈ (_update_task env st s status einfo).2.2, ∀ σ,
      updStatus call = some σ → σ = status := by
  intro call hc σ hσ
  cases hh : s.headers with
  | none => simp [_update_task, hh] at hc
  | some h =>
      cases htid : h.taskbadger_task_id with
      | none => simp [_update_task, hh, htid] at hc
      | some tid =>
          cases hr : (resolve_task env st s tid).1 with
          | none =>
              simp only [_update_task, hh, htid, hr] at hc
              have hg := resolve_trace_upd env st s tid call hc
              rw [hg] at hσ
              simp at hσ
          | some t =>
              by_cases hterm : t.status ∈ terminalStates
              · simp only [_update_task, hh, htid, hr, if_pos hterm] at hc
                have hg := resolve_trace_upd env st s tid call hc
                rw [hg] at hσ
                simp at hσ
              · simp only [_update_task, hh, htid, hr, if_neg hterm] at hc
                rcases List.mem_append.mp hc with h1 | h2
                · have hg := resolve_trace_upd env st s tid call h1
                  rw [hg] at hσ
                  simp at hσ
                · exact update_safe_trace_status env t.id status
                    (einfo.map (fun e => env.mergeData t.data [("exception", e)]))
                    call h2 σ hσ

/-- C1 (amended): for every execution whose resolved RemoteTask has a status
in TERMINAL_STATES, the shared update routine `_update_task` returns without
invoking the remote update (no update call, safe or underlying, appears in
the trace) and without running its cache-refresh step: the only possible
change to the cache entry for the task ID is the read-through insertion of
the fetched task itself on a cache miss during resolution; an existing cache
entry is never modified. -/
theorem terminal_guard_no_update (env : Env) (st : TBState) (s : Sender)
    (h : HeaderBag) (tid : String) (t : RemoteTask) (status : StatusEnum)
    (einfo : Option String)
    (hh : s.headers = some h) (htid : h.taskbadger_task_id = some tid)
    (hres : (resolve_task env st s tid).1 = some t)
    (hterm : t.status ∈ terminalStates) :
    (∀ call ∈ (_update_task env st s status einfo).2.2, updStatus call = none) ∧
    (Cache.get (_update_task env st s status einfo).1.cache tid = Cache.get st.cache tid ∨
     (Cache.get st.cache tid = none ∧
      Cache.get (_update_task env st s status einfo).1.cache tid = some t)) := by
  have hred : _update_task env st s status einfo =
      ((resolve_task env st s tid).2.1, (resolve_task env st s tid).2.2.1,
       (resolve_task env st s tid).2.2.2) := by
    simp only [_update_task, hh, htid, hres, if_pos hterm]
  constructor
  · intro call hc
    rw [hred] at hc
    exact resolve_trace_upd env st s tid call hc
  · have hsid : sender_task_id s = some tid := by
      simp [sender_task_id, hh, htid]
    rw [hred]
    exact resolve_cache_of_some env st s tid t hsid hres

/-- C1 counterexample: a concrete execution whose resolved task is terminal,
where `_update_task` nevertheless changes the cache entry for the task ID
(from absent to the fetched task, inserted by the read-through lookup during
resolution), refuting the claim that the cache entry is never modified.  The
trace shows the update facade is indeed never invoked. -/
theorem terminal_guard_cache_counterexample :
    (resolve_task envTerm stInit sender1 "t1").1 = some tTerm ∧
    tTerm.status ∈ terminalStates ∧
    Cache.get stInit.cache "t1" = none ∧
    Cache.get (_update_task envTerm stInit sender1 StatusEnum.success none).1.cache "t1"
      = some tTerm ∧
    (_update_task envTerm stInit sender1 StatusEnum.success none).2.2
      = [RemoteCall.getApi "t1"] := by
  refine ⟨by decide, by decide, by decide, by decide, by decide⟩

/-- Witness for the amended C1 theorem at a concrete terminal execution. -/
theorem terminal_guard_no_update_witness :
    (sender1.headers = some hdr1 ∧ hdr1.taskbadger_task_id = some "t1" ∧
     (resolve_task envTerm stInit sender1 "t1").1 = some tTerm ∧
     tTerm.status ∈ terminalStates) ∧
    ((∀ call ∈ (_update_task envTerm stInit sender1 StatusEnum.processing none).2.2,
        updStatus call = none) ∧
     (Cache.get (_update_task envTerm stInit sender1 StatusEnum.processing none).1.cache "t1"
        = Cache.get stInit.cache "t1" ∨
      (Cache.get stInit.cache "t1" = none ∧
       Cache.get (_update_task envTerm stInit sender1 StatusEnum.processing none).1.cache "t1"
        = some tTerm))) :=
  ⟨⟨rfl, rfl, by decide, by decide⟩,
   terminal_guard_no_update envTerm stInit sender1 hdr1 "t1" tTerm StatusEnum.processing none
     rfl rfl (by decide) (by decide)⟩

/-- C2: when unconfigured, `create_task_safe` and `update_task_safe` return
an absent result without invoking the underlying call (the trace holds only
the facade entry, no `createApi`/`updateApi`); when the underlying call
raises, both return an absent result.  No exception propagates: the facades
return `Option`, not `Except`. -/
theorem safe_facade_isolation (env : Env) (name : Val) (kw : List (String × Val))
    (tid : String) (status : StatusEnum) (d : Option TaskData) :
    (env.configured = false →
      create_task_safe env name kw = (none, [RemoteCall.createSafe name kw]) ∧
      update_task_safe env tid status d = (none, [RemoteCall.updateSafe tid status d])) ∧
    (∀ e, env.create_task name kw = Except.error e →
      (create_task_safe env name kw).1 = none) ∧
    (∀ e, env.update_task tid status d = Except.error e →
      (update_task_safe env tid status d).1 = none) := by
  refine ⟨?_, ?_, ?_⟩
  · intro hcfg
    constructor
    · simp [create_task_safe, hcfg]
    · simp [update_task_safe, hcfg]
  · intro e he
    by_cases hcfg : env.configured
    · simp [create_task_safe, hcfg, he]
    · simp [create_task_safe, hcfg]
  · intro e he
    by_cases hcfg : env.configured
    · simp [update_task_safe, hcfg, he]
    · simp [update_task_safe, hcfg]

/-- Witness for C2: an unconfigured environment skips the underlying call,
and a configured environment whose underlying calls raise yields absent
results. -/
theorem safe_facade_isolation_witness :
    (envOff.configured = false ∧
     create_task_safe envOff (Val.vstr "n") [] = (none, [RemoteCall.createSafe (Val.vstr "n") []])) ∧
    (envErr.create_task (Val.vstr "n") [] = Except.error "boom" ∧
     (create_task_safe envErr (Val.vstr "n") []).1 = none) ∧
    (envErr.update_task "t1" StatusEnum.success none = Except.error "boom" ∧
     (update_task_safe envErr "t1" StatusEnum.success none).1 = none) :=
  ⟨⟨rfl, ((safe_facade_isolation envOff (Val.vstr "n") [] "t1" StatusEnum.success none).1 rfl).1⟩,
   ⟨rfl, (safe_facade_isolation envErr (Val.vstr "n") [] "t1" StatusEnum.success none).2.1 "boom" rfl⟩,
   ⟨rfl, (safe_facade_isolation envErr (Val.vstr "n") [] "t1" StatusEnum.success none).2.2 "boom" rfl⟩⟩

/-- C3: the publish handler skips entirely, with no `create_task_safe` call
and an unchanged header bag and registry entry, when the sender name is in
the framework's internal namespace, or no header bag is present, or the
system is unconfigured, or neither the per-call opt-in flag nor the
integration-level auto-track setting is set. -/
theorem publish_skip_no_create (env : Env) (sender : String) (headers : Option HeaderBag)
    (hskip : strStarts sender "celery." = true ∨ headers = none ∨ env.configured = false ∨
      (∀ h, headers = some h →
        h.taskbadger_track = false ∧ env.autoTrackCelery.getD false = false)) :
    task_publish_handler env sender headers = ⟨headers, env.tasks sender, []⟩ := by
  cases headers with
  | none => simp [task_publish_handler]
  | some h =>
      rcases hskip with hs | hnone | hconf | hflags
      · simp [task_publish_handler, hs]
      · exact absurd hnone (by simp)
      · simp [task_publish_handler, hconf]
      · obtain ⟨ht, ha⟩ := hflags h rfl
        by_cases hc : (strStarts sender "celery." || !env.configured) = true
        · simp [task_publish_handler, hc]
        · simp [task_publish_handler, hc, ht, ha]

/-- Witness for C3: publishing a task with no opt-in flag and no auto-track
setting performs no create call and stores no task ID. -/
theorem publish_skip_no_create_witness :
    (∀ h, (some hdr0 : Option HeaderBag) = some h →
      h.taskbadger_track = false ∧ envTerm.autoTrackCelery.getD false = false) ∧
    task_publish_handler envTerm "jobs.send_email" (some hdr0)
      = ⟨some hdr0, envTerm.tasks "jobs.send_email", []⟩ :=
  ⟨fun h hh => by cases hh; exact ⟨rfl, rfl⟩,
   publish_skip_no_create envTerm "jobs.send_email" (some hdr0)
     (Or.inr (Or.inr (Or.inr (fun h hh => by cases hh; exact ⟨rfl, rfl⟩))))⟩

/-- C4: effective tracking options: decorator-level {a:1, b:2} merged with
schedule-time {b:3, c:4} yields {a:1, b:3, c:4} (schedule-time wins on
collision); the status key is always forced to PENDING in the kwargs passed
to create; the name defaults to the host framework task name from the header
bag unless the merged options supply one. -/
theorem effective_options_precedence :
    merged_options (some ctaskEx) hdrEx
      = [("a", Val.vint 1), ("b", Val.vint 3), ("c", Val.vint 4)] ∧
    (∀ (ctask : Option CTask) (h : HeaderBag),
      dlookup (effective_kwargs ctask h).1 "status"
        = some (Val.vstatus StatusEnum.pending)) ∧
    (∀ (ctask : Option CTask) (h : HeaderBag),
      (dlookup (dinsert (merged_options ctask h) "status"
          (Val.vstatus StatusEnum.pending)) "name" = none →
        (effective_kwargs ctask h).2.1 = Val.vstr h.task) ∧
      (∀ v, dlookup (dinsert (merged_options ctask h) "status"
          (Val.vstatus StatusEnum.pending)) "name" = some v →
        (effective_kwargs ctask h).2.1 = v)) := by
  refine ⟨by decide, ?_, ?_⟩
  · intro ctask h
    show dlookup (dremove (dinsert (merged_options ctask h) "status"
      (Val.vstatus StatusEnum.pending)) "name") "status"
      = some (Val.vstatus StatusEnum.pending)
    rw [dlookup_dremove_ne _ "name" "status" (by decide)]
    exact dlookup_dinsert_self _ "status" _
  · intro ctask h
    constructor
    · intro hn
      show (dlookup (dinsert (merged_options ctask h) "status"
        (Val.vstatus StatusEnum.pending)) "name").getD (Val.vstr h.task) = Val.vstr h.task
      rw [hn]
      rfl
    · intro v hn
      show (dlookup (dinsert (merged_options ctask h) "status"
        (Val.vstatus StatusEnum.pending)) "name").getD (Val.vstr h.task) = v
      rw [hn]
      rfl

/-- Witness for C4 at a header bag with no explicit name: the name falls
back to the host framework's task name. -/
theorem effective_options_precedence_witness :
    dlookup (dinsert (merged_options (some ctaskEx) hdrEx) "status"
      (Val.vstatus StatusEnum.pending)) "name" = none ∧
    (effective_kwargs (some ctaskEx) hdrEx).2.1 = Val.vstr hdrEx.task :=
  ⟨by decide, (effective_options_precedence.2.2 (some ctaskEx) hdrEx).1 (by decide)⟩

/-- C5: inserting N+1 distinct keys into an empty cache of capacity N and
then pruning once leaves exactly N entries, the evicted entry being the one
inserted first; and lookups never promote an entry, so running any operation
sequence equals running just its insertions. -/
theorem cache_fifo_bound {α : Type} (N : Nat) (keys : List String) (f : String → α)
    (hnd : keys.Nodup) (hlen : keys.length = N + 1) :
    (Cache.prune (keys.foldl (fun acc k => Cache.set acc k (f k)) (Cache.mk [] N))).cache
      = (keys.map (fun k => (k, f k))).tail ∧
    (Cache.prune (keys.foldl (fun acc k => Cache.set acc k (f k)) (Cache.mk [] N))).cache.length
      = N ∧
    (∀ (c : Cache α) (ops : List (CacheOp α)),
      runOps c ops = runOps c (ops.filter CacheOp.isIns)) := by
  have hcache : (keys.foldl (fun acc k => Cache.set acc k (f k)) (Cache.mk [] N)).cache
      = keys.map (fun k => (k, f k)) := by
    have := foldl_set_fresh f keys (Cache.mk [] N) hnd (fun k _ => rfl)
    simpa using this
  have hmax : (keys.foldl (fun acc k => Cache.set acc k (f k)) (Cache.mk [] N)).maxsize
      = N := foldl_set_maxsize f keys (Cache.mk [] N)
  have hlen' : (keys.foldl (fun acc k => Cache.set acc k (f k)) (Cache.mk [] N)).cache.length
      = N + 1 := by
    rw [hcache, List.length_map, hlen]
  have hgt : (keys.foldl (fun acc k => Cache.set acc k (f k)) (Cache.mk [] N)).cache.length
      > (keys.foldl (fun acc k => Cache.set acc k (f k)) (Cache.mk [] N)).maxsize := by
    rw [hlen', hmax]
    exact Nat.lt_succ_self N
  have hprune : (Cache.prune (keys.foldl (fun acc k => Cache.set acc k (f k)) (Cache.mk [] N))).cache
      = (keys.map (fun k => (k, f k))).tail := by
    unfold Cache.prune
    rw [if_pos hgt, hcache]
  refine ⟨hprune, ?_, fun c ops => runOps_filter ops c⟩
  rw [hprune, List.length_tail, List.length_map, hlen]
  omega

/-- Witness for C5 with three distinct keys and capacity two. -/
theorem cache_fifo_bound_witness :
    (["k1", "k2", "k3"] : List String).Nodup ∧
    (["k1", "k2", "k3"] : List String).length = 2 + 1 ∧
    (Cache.prune ((["k1", "k2", "k3"] : List String).foldl
        (fun acc k => Cache.set acc k ((fun _ => (0 : Nat)) k)) (Cache.mk [] 2))).cache
      = ((["k1", "k2", "k3"] : List String).map (fun k => (k, (fun _ => (0 : Nat)) k))).tail :=
  ⟨by decide, by decide,
   (cache_fifo_bound 2 ["k1", "k2", "k3"] (fun _ => (0 : Nat)) (by decide) (by decide)).1⟩

/-- C10: Cache.set never evicts (it inserts or overwrites exactly the given
key, preserving every other binding, growing the size by one only on a fresh
key); a single prune removes exactly one entry when the size exceeds maxsize
and nothing otherwise; and k insertions of distinct fresh keys beyond
capacity N leave N + k entries. -/
theorem cache_set_prune_semantics {α : Type} (c : Cache α) (key : String) (v : α) :
    (∀ k', k' ≠ key → dlookup (Cache.set c key v).cache k' = dlookup c.cache k') ∧
    dlookup (Cache.set c key v).cache key = some v ∧
    (Cache.set c key v).cache.length =
      (if (dlookup c.cache key).isSome then c.cache.length else c.cache.length + 1) ∧
    (c.cache.length > c.maxsize → (Cache.prune c).cache.length = c.cache.length - 1) ∧
    (c.cache.length ≤ c.maxsize → Cache.prune c = c) ∧
    (∀ (N j : Nat) (keys : List String) (f : String → α), keys.Nodup →
      keys.length = N + j →
      (keys.foldl (fun acc k => Cache.set acc k (f k)) (Cache.mk [] N)).cache.length
        = N + j) := by
  refine ⟨?_, ?_, ?_, ?_, ?_, ?_⟩
  · intro k' hne
    exact dlookup_dinsert_ne c.cache key k' v hne
  · exact dlookup_dinsert_self c.cache key v
  · exact dinsert_length c.cache key v
  · intro hgt
    unfold Cache.prune
    rw [if_pos hgt]
    exact List.length_tail c.cache
  · intro hle
    unfold Cache.prune
    rw [if_neg (Nat.not_lt.mpr hle)]
  · intro N j keys f hnd hlen
    have hcache : (keys.foldl (fun acc k => Cache.set acc k (f k)) (Cache.mk [] N)).cache
        = keys.map (fun k => (k, f k)) := by
      have := foldl_set_fresh f keys (Cache.mk [] N) hnd (fun k _ => rfl)
      simpa using this
    rw [hcache, List.length_map, hlen]

/-- Witness for C10: a cache one over capacity loses exactly one entry on
prune, and three distinct insertions into an empty cache of capacity one
leave three entries. -/
theorem cache_set_prune_semantics_witness :
    ((Cache.mk [("a", 1), ("b", 2)] 1 : Cache Nat).cache.length >
       (Cache.mk [("a", 1), ("b", 2)] 1 : Cache Nat).maxsize ∧
     (Cache.prune (Cache.mk [("a", 1), ("b", 2)] 1 : Cache Nat)).cache.length
       = (Cache.mk [("a", 1), ("b", 2)] 1 : Cache Nat).cache.length - 1) ∧
    ((["a", "b", "c"] : List String).Nodup ∧
     (["a", "b", "c"] : List String).length = 1 + 2 ∧
     ((["a", "b", "c"] : List String).foldl
        (fun acc k => Cache.set acc k ((fun _ => (0 : Nat)) k)) (Cache.mk [] 1)).cache.length
       = 1 + 2) :=
  ⟨⟨by decide,
    (cache_set_prune_semantics (Cache.mk [("a", 1), ("b", 2)] 1 : Cache Nat) "a" 0).2.2.2.1
      (by decide)⟩,
   ⟨by decide, by decide,
    (cache_set_prune_semantics (Cache.mk [] 1 : Cache Nat) "a" 0).2.2.2.2.2
      1 2 ["a", "b", "c"] (fun _ => (0 : Nat)) (by decide) (by decide)⟩⟩

/-- C6: the retry handler performs exactly the same behaviour as the failure
handler (same state change, same sender update, same trace): both delegate
to the shared update routine with target status ERROR, attaching the error
info, then close the session; and every update call emitted for a retry
signal carries status ERROR. -/
theorem retry_reports_error_like_failure (env : Env) (st : TBState) (s : Sender)
    (einfo : Option String) :
    task_retry_handler env st s einfo = task_failure_handler env st s einfo ∧
    (∀ call ∈ (task_retry_handler env st s einfo).2.2, ∀ σ,
      updStatus call = some σ → σ = StatusEnum.error) := by
  constructor
  · rfl
  · intro call hc σ hσ
    have hc' : call ∈ (_update_task env st s StatusEnum.error einfo).2.2 := hc
    exact update_task_trace_status env st s StatusEnum.error einfo call hc' σ hσ

/-- Witness for C6: a concrete retry whose trace contains an update call, and
that call carries status ERROR. -/
theorem retry_reports_error_witness :
    RemoteCall.updateSafe "t1" StatusEnum.error (some [("x", "1"), ("exception", "boom")])
      ∈ (task_retry_handler envLive stInit sender1 (some "boom")).2.2 ∧
    StatusEnum.error = StatusEnum.error :=
  ⟨by decide,
   (retry_reports_error_like_failure envLive stInit sender1 (some "boom")).2
     (RemoteCall.updateSafe "t1" StatusEnum.error (some [("x", "1"), ("exception", "boom")]))
     (by decide) StatusEnum.error (by decide)⟩

/-- C7: the cached get returns the cached value with no fetch on a hit; on a
miss it invokes the underlying fetch, caching the result only when it is
non-absent; an absent result (a caught exception) is never cached, so the
next call with the same ID fetches again. -/
theorem cached_get_semantics (env : Env) (c : Cache RemoteTask) (tid : String) :
    (∀ t, dlookup c.cache tid = some t → safe_get_task env c tid = (some t, c, [])) ∧
    (dlookup c.cache tid = none →
      (∀ t, env.get_task tid = Except.ok t →
        safe_get_task env c tid = (some t, Cache.set c tid t, [RemoteCall.getApi tid])) ∧
      (∀ e, env.get_task tid = Except.error e →
        safe_get_task env c tid = (none, c, [RemoteCall.getApi tid]) ∧
        RemoteCall.getApi tid ∈ (safe_get_task env (safe_get_task env c tid).2.1 tid).2.2)) := by
  constructor
  · intro t ht
    simp [safe_get_task, ht]
  · intro hmiss
    constructor
    · intro t ht
      simp [safe_get_task, hmiss, ht]
    · intro e he
      have h1 : safe_get_task env c tid = (none, c, [RemoteCall.getApi tid]) := by
        simp [safe_get_task, hmiss, he]
      refine ⟨h1, ?_⟩
      rw [h1]
      simp [safe_get_task, hmiss, he]

/-- Witness for C7: a hit returns the cached task without fetching; a missed
fetch that raises caches nothing, so the repeat call fetches again. -/
theorem cached_get_semantics_witness :
    (dlookup (Cache.mk [("t1", tTerm)] 128 : Cache RemoteTask).cache "t1" = some tTerm ∧
     safe_get_task envTerm (Cache.mk [("t1", tTerm)] 128) "t1"
       = (some tTerm, Cache.mk [("t1", tTerm)] 128, [])) ∧
    (dlookup stInit.cache.cache "t2" = none ∧
     envTerm.get_task "t2" = Except.error "404" ∧
     safe_get_task envTerm stInit.cache "t2" = (none, stInit.cache, [RemoteCall.getApi "t2"]) ∧
     RemoteCall.getApi "t2"
       ∈ (safe_get_task envTerm (safe_get_task envTerm stInit.cache "t2").2.1 "t2").2.2) :=
  ⟨⟨by decide,
    (cached_get_semantics envTerm (Cache.mk [("t1", tTerm)] 128) "t1").1 tTerm (by decide)⟩,
   ⟨by decide, rfl,
    (((cached_get_semantics envTerm stInit.cache "t2").2 (by decide)).2 "404" rfl).1,
    (((cached_get_semantics envTerm stInit.cache "t2").2 (by decide)).2 "404" rfl).2⟩⟩

/-- C8 (failing evaluation): the effective-options computation is not pure.
Because `getattr(ctask, TB_KWARGS_ARG, {})` aliases the task definition's
stored decorator-level options dict, the handler's in-place mutations land in
it: publishing a task whose stored options are just a custom name consumes
the name (leaving only the injected status), so the stored mapping changes
and a second, identical publish computes a different effective name. -/
theorem publish_options_aliasing_bug :
    (effective_kwargs (some ctaskAlias) hdrAlias).2.1 = Val.vstr "custom" ∧
    (effective_kwargs (some ctaskAlias) hdrAlias).2.2
      = some { tb_kwargs := some [("status", Val.vstatus StatusEnum.pending)], attrs := [] } ∧
    (effective_kwargs (some ctaskAlias) hdrAlias).2.2 ≠ some ctaskAlias ∧
    (effective_kwargs ((effective_kwargs (some ctaskAlias) hdrAlias).2.2) hdrAlias).2.1
      = Val.vstr "jobs.aliased" ∧
    Val.vstr "custom" ≠ Val.vstr "jobs.aliased" := by
  refine ⟨by decide, by decide, by decide, by decide, by decide⟩

/-- C9: increment_progress issues an update whose value is exactly the
amount when the current value is UNSET or None (treated as 0), and the sum
of the present numeric value and the amount otherwise. -/
theorem increment_progress_spec (t : RemoteTask) (amount : Int) :
    ((t.value = UOpt.unset ∨ t.value = UOpt.null) →
      increment_progress t amount = (t.id, amount)) ∧
    (∀ v, t.value = UOpt.val v → increment_progress t amount = (t.id, v + amount)) := by
  constructor
  · intro hv
    rcases hv with hv | hv
    · simp [increment_progress, hv]
    · simp [increment_progress, hv]
  · intro v hv
    simp [increment_progress, hv]

/-- Witness for C9: an unset value yields exactly the amount; a present value
yields the sum. -/
theorem increment_progress_spec_witness :
    ((tTerm.value = UOpt.unset ∨ tTerm.value = UOpt.null) ∧
     increment_progress tTerm 5 = (tTerm.id, 5)) ∧
    (tLive.value = UOpt.val 3 ∧
     increment_progress tLive 5 = (tLive.id, 3 + 5)) :=
  ⟨⟨Or.inl rfl, (increment_progress_spec tTerm 5).1 (Or.inl rfl)⟩,
   ⟨rfl, (increment_progress_spec tLive 5).2 3 rfl⟩⟩
